import Mathlib

/-!
Verification of the AI Grammar Enhancer correction pipeline.

This file gives a shallow embedding of the core of the repository
(the five correction stages of phases 6 to 10 and the pipeline
orchestrator) and proves properties of that embedding.

Modelling conventions:
* The external linguistic annotator (spaCy) is modelled as an explicit
  parameter producing a list of `Tok` values carrying the attributes
  the code reads (surface text, trailing whitespace, lemma, POS tag,
  fine-grained tag, dependency label, character offset, punctuation and
  space flags, and for the subject-verb stage the dependency children
  and subtree as index lists).  The external grammar checker
  (LanguageTool) and the optional Gramformer model are likewise
  parameters; a raising checker is behaviourally identical to one that
  returns its input unchanged, which the parameterisation covers.
* Python dictionaries used as records are embedded as structures whose
  possibly-absent keys have type `Option _`.
* Python float arithmetic is modelled by exact rational arithmetic;
  `pyRound` models Python's `round(x, n)` (tie-breaking differences of
  binary floats are not modelled and no claim depends on them).
* Regular-expression substitutions from the source are embedded as
  explicit scanners over characters or over alternating word/separator
  runs, mirroring `re.sub`'s leftmost, non-overlapping semantics.
-/

namespace GrammarEnhancer

/-- Helper: the dropped suffix is no longer than the list. -/
theorem length_dropWhile_le' (p : Char → Bool) (l : List Char) :
    (l.dropWhile p).length ≤ l.length :=
  (List.dropWhile_suffix p).length_le

/-- Boolean infix test on character lists. -/
def infixAux (needle : List Char) : List Char → Bool
  | [] => needle.isEmpty
  | c :: cs => needle.isPrefixOf (c :: cs) || infixAux needle cs

/-- Python `needle in haystack` (substring containment). -/
def strContains (hay needle : String) : Bool :=
  infixAux needle.data hay.data

/-- Python `any(w in s for w in ws)`. -/
def containsAny (s : String) (ws : List String) : Bool :=
  ws.any (strContains s)

/-- Python `str.lower()` (character-wise; the byte-position based
built-in string functions do not reduce in the kernel). -/
def pyLower (s : String) : String := String.mk (s.data.map Char.toLower)

/-- Python `str.upper()`. -/
def pyUpper (s : String) : String := String.mk (s.data.map Char.toUpper)

/-- Python `str.strip()`: drop whitespace from both ends. -/
def pyStrip (s : String) : String :=
  String.mk (((s.data.dropWhile Char.isWhitespace).reverse.dropWhile
    Char.isWhitespace).reverse)

/-- Python `str.endswith(suffix)`. -/
def pyEndsWith (s suf : String) : Bool :=
  List.isPrefixOf suf.data.reverse s.data.reverse

/-- Python `str.startswith(pre)`. -/
def pyStartsWith (s pre : String) : Bool :=
  List.isPrefixOf pre.data s.data

/-- Python `s[:-n]`. -/
def pyDropRight (s : String) (n : Nat) : String :=
  String.mk (s.data.take (s.data.length - n))

/-- Python `" ".join(parts)`. -/
def joinSpace (l : List String) : String :=
  String.mk (List.intercalate [' '] (l.map (·.data)))

/-- Python `str.capitalize()`: first character uppercased, rest lowercased. -/
def capitalizePy (s : String) : String :=
  match s.data with
  | [] => ""
  | c :: cs => String.mk (c.toUpper :: cs.map Char.toLower)

/-- Python `str.isupper()`: at least one cased character and every cased
character uppercase (cased characters are letters here). -/
def pyIsUpper (s : String) : Bool :=
  s.data.any Char.isAlpha && s.data.all (fun c => !c.isAlpha || c.isUpper)

/-- Python `s[0].isupper()` for the nonempty token texts the code applies
it to (`false` on the empty string, where Python would raise). -/
def firstIsUpper (s : String) : Bool :=
  match s.data with
  | [] => false
  | c :: _ => c.isUpper

/-- A regex `\w` character (ASCII letters, digits, underscore). -/
def isWordChar (c : Char) : Bool :=
  c.isAlphanum || c == '_'

/-- Split a character list into maximal runs of word / non-word
characters; the flag is `true` on word runs. -/
def toRunsF : Nat → List Char → List (Bool × String)
  | _, [] => []
  | 0, _ => []
  | fuel + 1, c :: cs =>
    let w := isWordChar c
    let run := cs.takeWhile (fun d => isWordChar d == w)
    let rest := cs.dropWhile (fun d => isWordChar d == w)
    (w, String.mk (c :: run)) :: toRunsF fuel rest

/-- Entry point of `toRunsF` with sufficient fuel (the recursion
consumes at least one character per step). -/
def toRuns (l : List Char) : List (Bool × String) := toRunsF l.length l

/-- Reassemble runs into a string. -/
def joinRuns (rs : List (Bool × String)) : String :=
  String.join (rs.map (·.2))

/-- `re.sub(r"\bW\b", f(W), s)`-style rewriting: apply `f` to every
maximal word run, keeping separators. -/
def mapWords (f : String → String) (s : String) : String :=
  joinRuns ((toRuns s.data).map (fun r => if r.1 then (r.1, f r.2) else r))

/-- Python `re.sub(r"\s+", " ", text.strip())` (the shared
`preprocess_text` helper from `src/utils.py`). -/
def preprocessText (text : String) : String :=
  joinRuns ((toRuns (pyStrip text).data).map
    (fun r => if !r.1 && r.2.data.all Char.isWhitespace then (r.1, " ") else r))

/-- One token of the annotator's output, carrying exactly the attributes
the stages read.  `children` and `subtree` are lists of token indices
into the same document (used only by the subject-verb stage). -/
structure Tok where
  text : String := ""
  whitespace : String := ""
  lemma_ : String := ""
  pos : String := ""
  tag : String := ""
  dep : String := ""
  idx : Nat := 0
  isPunct : Bool := false
  isSpace : Bool := false
  children : List Nat := []
  subtree : List Nat := []
deriving DecidableEq, Repr

/-- Python `token.text_with_ws`. -/
def Tok.textWithWs (t : Tok) : String := t.text ++ t.whitespace

/-- One edit record: a Python dict with possibly absent keys, embedded
as a structure of `Option` fields (`none` = key absent). -/
structure Edit where
  type : Option String := none
  phase : Option Nat := none
  phase_name : Option String := none
  confidence : Option ℚ := none
  orig : Option String := none
  repl : Option String := none
  span : Option (Nat × Nat) := none
  reason : Option String := none
  antecedent : Option String := none
  noun : Option String := none
  subject : Option String := none
  source : Option String := none
  message : Option String := none
  fromText : Option String := none
  toText : Option String := none
deriving DecidableEq, Repr

/-- The uniform stage result shape: `corrected_text` and `issues_found`
are always present in the source's return dicts; `confidence` and
`dominant_tense` are `Option`s because some return paths omit them. -/
structure StageResult where
  corrected_text : String
  issues_found : List Edit
  confidence : Option ℚ := none
  dominant_tense : Option String := none
deriving DecidableEq, Repr

/-- Python `round(q, n)` modelled on rationals. -/
def pyRound (n : Nat) (q : ℚ) : ℚ :=
  (round (q * (10 : ℚ) ^ n) : ℤ) / (10 : ℚ) ^ n

/-- `re.sub(r"\s+(P)", r"\1", s)` for a punctuation class `P`: drop any
whitespace run immediately preceding one of `punct`. -/
def wsPunctAuxF (punct : List Char) : Nat → List Char → List Char
  | _, [] => []
  | 0, l => l
  | fuel + 1, c :: cs =>
    if c.isWhitespace then
      match cs.dropWhile Char.isWhitespace with
      | p :: rs =>
        if p ∈ punct then p :: wsPunctAuxF punct fuel rs
        else c :: wsPunctAuxF punct fuel cs
      | [] => c :: cs
    else c :: wsPunctAuxF punct fuel cs

/-- String-level wrapper for `wsPunctAuxF` with sufficient fuel. -/
def subWsPunct (punct : List Char) (s : String) : String :=
  String.mk (wsPunctAuxF punct s.data.length s.data)

/-- `re.sub(r"\s{2,}", " ", s)`: collapse whitespace runs of length at
least two to a single space (a lone whitespace character is kept). -/
def collapseWs2AuxF : Nat → List Char → List Char
  | _, [] => []
  | 0, l => l
  | fuel + 1, c :: cs =>
    if c.isWhitespace then
      let run := cs.takeWhile Char.isWhitespace
      let rest := cs.dropWhile Char.isWhitespace
      (if run.isEmpty then [c] else [' ']) ++ collapseWs2AuxF fuel rest
    else c :: collapseWs2AuxF fuel cs

/-- String-level wrapper for `collapseWs2AuxF` with sufficient fuel. -/
def collapseWs2 (s : String) : String :=
  String.mk (collapseWs2AuxF s.data.length s.data)

/-- A nonempty run consisting purely of whitespace (regex `\s+`). -/
def isWsRun (s : String) : Bool :=
  s != "" && s.data.all Char.isWhitespace

namespace Tense

/-- The `self.irregular` base-to-past table of `phase7_tense.py`, in
insertion order. -/
def irregular : List (String × String) :=
  [("go", "went"), ("buy", "bought"), ("come", "came"), ("do", "did"),
   ("eat", "ate"), ("give", "gave"), ("have", "had"), ("know", "knew"),
   ("make", "made"), ("see", "saw"), ("take", "took"), ("think", "thought"),
   ("write", "wrote"), ("run", "ran"), ("find", "found"), ("leave", "left"),
   ("say", "said"), ("get", "got"), ("begin", "began"), ("drink", "drank"),
   ("drive", "drove"), ("fly", "flew"), ("grow", "grew"), ("sing", "sang"),
   ("swim", "swam"), ("wear", "wore"), ("sell", "sold"), ("tell", "told"),
   ("choose", "chose"), ("fall", "fell"), ("forget", "forgot"),
   ("freeze", "froze"), ("keep", "kept"), ("meet", "met"), ("ride", "rode"),
   ("speak", "spoke"), ("teach", "taught"), ("understand", "understood"),
   ("win", "won"), ("break", "broke")]

/-- `TenseConsistencyCorrector._get_base`: first base whose past form
matches the lowercased verb, else the verb itself. -/
def getBase (verb : String) : String :=
  match irregular.find? (fun bp => (pyLower verb) == bp.2) with
  | some bp => bp.1
  | none => verb

/-- `TenseConsistencyCorrector._past_participle`: first past form whose
base matches the lowercased verb; otherwise append "ed" unless the verb
already ends in "ed". -/
def pastParticiple (verb : String) : String :=
  match irregular.find? (fun bp => (pyLower verb) == bp.1) with
  | some bp => bp.2
  | none => if !(pyEndsWith verb "ed") then verb ++ "ed" else verb

def pastClues : List String := ["yesterday", "ago", "last", "earlier", "before"]
def futureClues : List String := ["tomorrow", "next", "soon", "will", "going to"]
def presentClues : List String := ["now", "today", "always", "every"]

/-- `re.sub(r"\bdidn't\s+(\w+ed)\b", lambda m: f"didn't {m.group(1)[:-2]}", s, flags=re.I)`
as a scanner over word/separator runs. -/
def didnTScanF : Nat → List (Bool × String) → List (Bool × String)
  | _, [] => []
  | 0, l => l
  | fuel + 1, (true, a) :: (false, apo) :: (true, t) :: (false, ws) :: (true, e) :: rest =>
    if (pyLower a) == "didn" && apo == "'" && (pyLower t) == "t" && isWsRun ws &&
        pyEndsWith (pyLower e) "ed" && e.length ≥ 3 then
      (true, "didn") :: (false, "'") :: (true, "t") :: (false, " ") ::
        (true, pyDropRight e 2) :: didnTScanF fuel rest
    else
      (true, a) ::
        didnTScanF fuel ((false, apo) :: (true, t) :: (false, ws) :: (true, e) :: rest)
  | fuel + 1, r :: rest => r :: didnTScanF fuel rest

/-- Entry point of `didnTScanF` with sufficient fuel. -/
def didnTScan (l : List (Bool × String)) : List (Bool × String) :=
  didnTScanF l.length l

def fourPast : List String := ["went", "came", "bought", "saw"]

/-- `re.sub(r"\b(do|does|don’t|doesn’t)\s+(went|came|bought|saw)\b", ...)`
(curly apostrophe as in the source) as a run scanner. -/
def doDoesScanF : Nat → List (Bool × String) → List (Bool × String)
  | _, [] => []
  | 0, l => l
  | fuel + 1, (true, a) :: (false, s1) :: (true, w1) :: (false, s2) :: (true, w2) :: rest2 =>
    if ((pyLower a) == "do" || (pyLower a) == "does") && isWsRun s1 &&
        fourPast.contains (pyLower w1) then
      (true, a) :: (false, " ") :: (true, getBase w1) ::
        doDoesScanF fuel ((false, s2) :: (true, w2) :: rest2)
    else if ((pyLower a) == "don" || (pyLower a) == "doesn") && s1 == "’" &&
        (pyLower w1) == "t" && isWsRun s2 && fourPast.contains (pyLower w2) then
      (true, a) :: (false, s1) :: (true, w1) :: (false, " ") ::
        (true, getBase w2) :: doDoesScanF fuel rest2
    else
      (true, a) ::
        doDoesScanF fuel ((false, s1) :: (true, w1) :: (false, s2) :: (true, w2) :: rest2)
  | fuel + 1, (true, a) :: (false, s1) :: (true, w1) :: rest =>
    if ((pyLower a) == "do" || (pyLower a) == "does") && isWsRun s1 &&
        fourPast.contains (pyLower w1) then
      (true, a) :: (false, " ") :: (true, getBase w1) :: doDoesScanF fuel rest
    else (true, a) :: doDoesScanF fuel ((false, s1) :: (true, w1) :: rest)
  | fuel + 1, r :: rest => r :: doDoesScanF fuel rest

/-- Entry point of `doDoesScanF` with sufficient fuel. -/
def doDoesScan (l : List (Bool × String)) : List (Bool × String) :=
  doDoesScanF l.length l

/-- `re.sub(r"\b(was|were)\s+(\w+)\b", lambda m: f"{m.group(1)} {m.group(2)}ing", s, flags=re.I)`
as a run scanner. -/
def wasWereScanF : Nat → List (Bool × String) → List (Bool × String)
  | _, [] => []
  | 0, l => l
  | fuel + 1, (true, a) :: (false, ws) :: (true, b) :: rest =>
    if ((pyLower a) == "was" || (pyLower a) == "were") && isWsRun ws then
      (true, a) :: (false, " ") :: (true, b ++ "ing") :: wasWereScanF fuel rest
    else (true, a) :: wasWereScanF fuel ((false, ws) :: (true, b) :: rest)
  | fuel + 1, r :: rest => r :: wasWereScanF fuel rest

/-- Entry point of `wasWereScanF` with sufficient fuel. -/
def wasWereScan (l : List (Bool × String)) : List (Bool × String) :=
  wasWereScanF l.length l

/-- `TenseConsistencyCorrector._fix_aux_negation`. -/
def fixAuxNegation (s : String) : String :=
  joinRuns (wasWereScan (doDoesScan (didnTScan (toRuns s.data))))

/-- One of `re.sub(rf"\b{aux}\s+(\w+)\b", lambda m: f"{aux} {pp(m.group(1))}", s, flags=re.I)`
for aux in have/has/had, as a run scanner. -/
def auxPerfectScanF (auxw : String) : Nat → List (Bool × String) → List (Bool × String)
  | _, [] => []
  | 0, l => l
  | fuel + 1, (true, a) :: (false, ws) :: (true, b) :: rest =>
    if (pyLower a) == auxw && isWsRun ws then
      (true, auxw) :: (false, " ") :: (true, pastParticiple b) ::
        auxPerfectScanF auxw fuel rest
    else (true, a) :: auxPerfectScanF auxw fuel ((false, ws) :: (true, b) :: rest)
  | fuel + 1, r :: rest => r :: auxPerfectScanF auxw fuel rest

/-- Entry point of `auxPerfectScanF` with sufficient fuel. -/
def auxPerfectScan (auxw : String) (l : List (Bool × String)) :
    List (Bool × String) :=
  auxPerfectScanF auxw l.length l

/-- `TenseConsistencyCorrector._fix_continuous_perfect`. -/
def fixContinuousPerfect (s : String) : String :=
  joinRuns (auxPerfectScan "had" (auxPerfectScan "has"
    (auxPerfectScan "have" (toRuns s.data))))

/-- The replacement function of the future-tense rewrite
`re.sub(r"\b(went|came|bought|saw)\b", lambda m: self._get_base(m.group(1)), s)`
(no re.I flag: exact, case-sensitive word match). -/
def wordFutureMap (w : String) : String :=
  if fourPast.contains w then getBase w else w

/-- The issue dict appended by the future branch of `_apply_rules`. -/
def futureEdit : Edit := { type := some "future_normalize", phase := some 7 }

/-- Dict lookup `self.irregular[lemma]`. -/
def lookupIrregularBase (lemma0 : String) : Option String :=
  (irregular.find? (fun bp => bp.1 == lemma0)).map (·.2)

/-- `re.sub(rf"\b{tgt}\b", repl, s, flags=re.I)` for a plain word `tgt`. -/
def subWordCI (tgt repl s : String) : String :=
  mapWords (fun w => if (pyLower w) == (pyLower tgt) then repl else w) s

/-- `re.search(rf"\b{p}\b", s, re.I)` for a plain lowercase word `p`. -/
def hasWordCI (s p : String) : Bool :=
  (toRuns s.data).any (fun r => r.1 && (pyLower r.2) == p)

/-- Per-token body of the past branch of `_apply_rules`. -/
def pastStep (st : String × List Edit) (t : Tok) : String × List Edit :=
  match lookupIrregularBase (pyLower t.lemma_) with
  | some past =>
    if t.tag == "VB" || t.tag == "VBP" || t.tag == "VBZ" then
      if (pyLower t.text) != past then
        (subWordCI t.text past st.1,
         st.2 ++ [{ type := some "past_irregular", fromText := some t.text,
                    toText := some past, phase := some 7 }])
      else st
    else st
  | none => st

/-- Per-table-entry body of the present branch of `_apply_rules`. -/
def presentStep (st : String × List Edit) (bp : String × String) : String × List Edit :=
  if hasWordCI st.1 bp.2 then
    (mapWords (fun w => if (pyLower w) == bp.2 then bp.1 else w) st.1,
     st.2 ++ [{ type := some "present_normalize", fromText := some bp.2,
                toText := some bp.1, phase := some 7 }])
  else st

/-- `TenseConsistencyCorrector._apply_rules`.  Note that the token list
`doc` is computed from the sentence before the auxiliary/continuous
normalisations, exactly as in the source, and that the future branch
appends its `future_normalize` issue unconditionally. -/
def applyRules (nlp : String → List Tok) (s : String) (tense : String) :
    String × List Edit :=
  let doc := nlp s
  let s1 := fixAuxNegation s
  let s2 := fixContinuousPerfect s1
  if tense == "future" then (mapWords wordFutureMap s2, [futureEdit])
  else if tense == "past" then doc.foldl pastStep (s2, [])
  else if tense == "present" then irregular.foldl presentStep (s2, [])
  else (s2, [])

/-- `TenseConsistencyCorrector._detect_dominant_tense`.  The clue scores
are accumulated as (past, present, future); `max(clues, key=clues.get)`
returns the first maximal key in dict insertion order
past, present, future. -/
def detectDominantTense (nlp : String → List Tok) (text : String) : String :=
  let doc := nlp (pyLower text)
  let step := fun (c : Nat × Nat × Nat) (t : Tok) =>
    if pastClues.contains t.text || t.tag == "VBD" || t.tag == "VBN" then
      (c.1 + 3, c.2.1, c.2.2)
    else if futureClues.contains t.text || (pyLower t.text) == "will" then
      (c.1, c.2.1, c.2.2 + 3)
    else if t.tag == "VBZ" || t.tag == "VBP" then (c.1, c.2.1 + 2, c.2.2)
    else c
  let c0 := doc.foldl step (0, 0, 0)
  let cPast := c0.1 + (if strContains text "yesterday" then 5 else 0)
  let cPres := c0.2.1 + (if strContains text "now" || strContains text "today" then 3 else 0)
  let cFut := c0.2.2 + (if strContains text "tomorrow" then 5 else 0)
  if cPast ≥ cPres && cPast ≥ cFut then "past"
  else if cPres ≥ cFut then "present"
  else "future"

/-- `TenseConsistencyCorrector._apply_lt`: the checker service is a
parameter (`ltCheck` = "tool.check returned matches", `ltCorrect` =
`tool.correct`); an exception inside the try block behaves like
`ltCheck` returning false. -/
def applyLt (ltCheck : String → Bool) (ltCorrect : String → String)
    (sent : String) : String × List Edit :=
  if ltCheck sent then
    let corrected := ltCorrect sent
    if corrected != sent then
      (corrected, [{ type := some "LT", message := some "Refined by LanguageTool",
                     phase := some 7 }])
    else (sent, [])
  else (sent, [])

/-- `TenseConsistencyCorrector._fix_sentence`; `gf` is the optional
Gramformer collaborator (`none` when unavailable or failing). -/
def fixSentence (nlp : String → List Tok) (gf : Option (String → String))
    (ltCheck : String → Bool) (ltCorrect : String → String)
    (sent tense : String) : String × List Edit :=
  let (s1, ruleIssues) := applyRules nlp sent tense
  let (s2, gfIssues) :=
    match gf with
    | some f =>
      let corrected := f s1
      if corrected != s1 then
        (corrected, [{ type := some "GF",
                       message := some "Deep tense recheck by Gramformer",
                       phase := some 7 }])
      else (s1, ([] : List Edit))
    | none => (s1, [])
  let (s3, ltIssues) := applyLt ltCheck ltCorrect s2
  (s3, ruleIssues ++ gfIssues ++ ltIssues)

/-- `TenseConsistencyCorrector._clean_spacing`. -/
def cleanSpacing (text : String) : String :=
  pyStrip (collapseWs2 (subWsPunct ['.', ',', '!', '?', ';', ':'] text))

/-- The verb count of `_compute_confidence`:
`len([t for t in self.nlp(text) if t.pos_ == "VERB"])`. -/
def verbCount (nlp : String → List Tok) (text : String) : Nat :=
  ((nlp text).filter (fun t => t.pos == "VERB")).length

/-- `TenseConsistencyCorrector._compute_confidence`. -/
def computeConfidence (nlp : String → List Tok) (text : String)
    (issueCount : Nat) : ℚ :=
  let vc := verbCount nlp text
  if vc == 0 then 1
  else pyRound 2 (min ((0.8 : ℚ) + ((issueCount : ℚ) / (max vc 1 : ℚ)) * 0.2) 1)

/-- `TenseConsistencyCorrector.correct`.  `sentSplit` is the sentence
splitter `get_sentences` (delegated to the external annotator). -/
def correct (nlp : String → List Tok) (sentSplit : String → List String)
    (gf : Option (String → String)) (ltCheck : String → Bool)
    (ltCorrect : String → String) (text0 : String) : StageResult :=
  let text := preprocessText text0
  if (pyStrip text) == "" then
    { corrected_text := text, issues_found := [],
      dominant_tense := some "present", confidence := some 1 }
  else
    let dominant := detectDominantTense nlp text
    let pairs := (sentSplit text).map
      (fun sent => fixSentence nlp gf ltCheck ltCorrect sent dominant)
    let result := cleanSpacing (joinSpace (pairs.map (·.1)))
    let allIssues := (pairs.map (·.2)).flatten
    { corrected_text := result, issues_found := allIssues,
      dominant_tense := some dominant,
      confidence := some (computeConfidence nlp text allIssues.length) }

end Tense

namespace Pronoun

/-- `self.PRONOUN_FORMS` of `phase8_pronoun.py`: (base, nominative,
objective, possessive). -/
def PRONOUN_FORMS : List (String × String × String × String) :=
  [("he", "he", "him", "his"),
   ("she", "she", "her", "her"),
   ("it", "it", "it", "its"),
   ("they", "they", "them", "their")]

def SINGULAR_MALE : List String :=
  ["boy", "man", "father", "king", "john", "ravi", "brother", "uncle"]

def SINGULAR_FEMALE : List String :=
  ["girl", "woman", "mother", "mary", "sister", "aunt", "queen"]

def SINGULAR_NEUTER : List String :=
  ["dog", "book", "car", "shop", "market", "city", "team", "committee",
   "child", "student"]

def PLURAL : List String :=
  ["people", "students", "friends", "children", "police", "data", "teachers"]

/-- The closed pronoun set checked in `correct`. -/
def pronounSet : List String :=
  ["he", "she", "it", "they", "him", "her", "his", "its", "them", "their"]

/-- The filter applied to each examined token in `_find_antecedent`:
a noun or proper noun that is not a prepositional object or possessive
dependent (the two `continue` conditions of the loop). -/
def antecedentPred (t : Tok) : Bool :=
  (t.pos == "NOUN" || t.pos == "PROPN") && !(t.dep == "pobj" || t.dep == "poss")

/-- The loop of `_find_antecedent`: examine `doc[start]`, `doc[start-1]`,
... for `count` steps, returning the first token passing
`antecedentPred`. -/
def findAntecedentGo (doc : List Tok) : Nat → Nat → Option Tok
  | _, 0 => none
  | start, count + 1 =>
    match doc.get? start with
    | none => none
    | some t =>
      if antecedentPred t then some t
      else findAntecedentGo doc (start - 1) count

/-- `PronounAgreementCorrector._find_antecedent`.  The Python loop
`for i in range(pronoun_token.i - 1, max(-1, pronoun_token.i - 20), -1)`
visits indices `pi - 1` down to `max(-1, pi - 20) + 1`, i.e. it takes
`min pi 19` descending steps starting at `pi - 1`. -/
def findAntecedent (doc : List Tok) (pi : Nat) : Option Tok :=
  findAntecedentGo doc (pi - 1) (min pi 19)

/-- Gender/number base selection of `_expected_pronoun` (the final
else-branch repeats the plural-tag test exactly as the source does). -/
def pronounBase (antTok : Tok) : String :=
  let ant := (pyLower antTok.text)
  if SINGULAR_MALE.contains ant then "he"
  else if SINGULAR_FEMALE.contains ant then "she"
  else if SINGULAR_NEUTER.contains ant then "it"
  else if PLURAL.contains ant || antTok.tag == "NNS" || antTok.tag == "NNPS" then "they"
  else if antTok.tag == "NNS" || antTok.tag == "NNPS" then "they"
  else "it"

/-- `PronounAgreementCorrector._expected_pronoun`. -/
def expectedPronoun (doc : List Tok) (pronIdx : Nat) (antTok pronTok : Tok) :
    Option String :=
  let pron := (pyLower pronTok.text)
  let base := pronounBase antTok
  let prevTok := if pronIdx > 0 then doc.get? (pronIdx - 1) else none
  let nextTok := doc.get? (pronIdx + 1)
  let form :=
    if ["his", "her", "its", "their"].contains pron ||
        (nextTok.map (·.pos == "NOUN")).getD false then "poss"
    else if ["him", "her", "it", "them"].contains pron ||
        (prevTok.map (·.pos == "VERB")).getD false then "obj"
    else "nom"
  (PRONOUN_FORMS.find? (fun f => f.1 == base)).map
    (fun f => if form == "poss" then f.2.2.2
              else if form == "obj" then f.2.2.1 else f.2.1)

/-- Body of the token loop of `PronounAgreementCorrector.correct`. -/
def correctStep (doc : List Tok) (st : List String × List Edit)
    (it : Nat × Tok) : List String × List Edit :=
  let (i, token) := it
  if token.pos != "PRON" then st
  else if !(pronounSet.contains (pyLower token.text)) then st
  else
    match findAntecedent doc i with
    | none => st
    | some antecedent =>
      match expectedPronoun doc i antecedent token with
      | none => st
      | some expected =>
        if (pyLower expected) == (pyLower token.text) then st
        else
          let fixed := if firstIsUpper token.text then capitalizePy expected
                       else expected
          (st.1.set i (fixed ++ token.whitespace),
           st.2 ++ [{ span := some (token.idx, token.idx + token.text.length),
                      orig := some token.text, repl := some fixed,
                      antecedent := some antecedent.text,
                      confidence := some 0.99, phase := some 8 }])

/-- `PronounAgreementCorrector.correct`.  On blank input the source
returns a dict without a `confidence` key (`confidence := none`). -/
def correct (nlp : String → List Tok) (text : String) : StageResult :=
  if (pyStrip text) == "" then
    { corrected_text := text, issues_found := [], confidence := none }
  else
    let doc := nlp text
    let init := doc.map Tok.textWithWs
    let (tokens, issues) := doc.enum.foldl (correctStep doc) (init, [])
    let result := pyStrip (collapseWs2 (subWsPunct ['.', ',', '!', '?']
      (String.join tokens)))
    { corrected_text := result, issues_found := issues,
      confidence := some (if issues.isEmpty then 1 else 0.99) }

end Pronoun

namespace Conj

/-- `re.search(r"[.!?]$", s.strip())` as used in `phase9_conjunctions.py`. -/
def endsTerminal (s : String) : Bool :=
  pyEndsWith (pyStrip s) "." || pyEndsWith (pyStrip s) "!" || pyEndsWith (pyStrip s) "?"

def negWords : List String := ["not", "no", "never", "none", "hardly", "rarely"]

def positiveWords : List String :=
  ["good", "happy", "success", "excellent", "love", "like", "win"]

def negativeWords : List String := ["bad", "sad", "fail", "hate", "lose", "poor"]

/-- `ConjunctionsCorrector._is_contrast` (substring membership, exactly
as Python's `w in p`). -/
def isContrast (p c : String) : Bool :=
  if containsAny p positiveWords && containsAny c negativeWords then true
  else if containsAny p negativeWords && containsAny c positiveWords then true
  else if (containsAny p negWords && !containsAny c negWords) ||
      (!containsAny p negWords && containsAny c negWords) then true
  else false

/-- `ConjunctionsCorrector._choose_connector`: returns (connector,
reason); the empty connector means "no insertion". -/
def chooseConnector (prev curr : String) : String × String :=
  let p := (pyLower prev)
  let c := (pyLower curr)
  if containsAny c ["because", "since", "therefore", "hence"] then ("", "")
  else if isContrast p c then ("but", "contrast")
  else if containsAny p ["because", "since", "due to", "as a result"] then
    ("so", "cause-result")
  else if containsAny p ["reason", "cause"] ||
      containsAny c ["result", "therefore"] then ("therefore", "cause-result")
  else if containsAny p ["first", "after", "before", "later", "next"] then
    ("then", "sequence")
  else if containsAny c ["then", "afterward", "later", "finally"] then ("", "")
  else if endsTerminal prev then ("and", "addition")
  else ("", "")

/-- `re.sub(r"\s*(P)\s*", r"\1 ", s)` for a punctuation class `P`: every
such punctuation character, with any surrounding whitespace, becomes
"punctuation + one space". -/
def punctSpaceAuxF (punct : List Char) : Nat → List Char → List Char
  | _, [] => []
  | 0, l => l
  | fuel + 1, c :: cs =>
    if c ∈ punct then
      c :: ' ' :: punctSpaceAuxF punct fuel (cs.dropWhile Char.isWhitespace)
    else if c.isWhitespace then
      match cs.dropWhile Char.isWhitespace with
      | p :: rs =>
        if p ∈ punct then
          p :: ' ' :: punctSpaceAuxF punct fuel (rs.dropWhile Char.isWhitespace)
        else c :: (cs.takeWhile Char.isWhitespace) ++ punctSpaceAuxF punct fuel (p :: rs)
      | [] => c :: cs
    else c :: punctSpaceAuxF punct fuel cs

/-- String-level wrapper for `punctSpaceAuxF` with sufficient fuel. -/
def punctSpaceSub (punct : List Char) (s : String) : String :=
  String.mk (punctSpaceAuxF punct s.data.length s.data)

/-- `ConjunctionsCorrector._fix_spacing`: the five substitutions in
source order, then strip. -/
def fixSpacing (text : String) : String :=
  let t1 := subWsPunct ['.', ',', '!', '?', ';', ':'] text
  let t2 := punctSpaceSub ['!', '?', '.', ',', ';', ':'] t1
  let t3 := collapseWs2 t2
  let t4 := punctSpaceSub [','] t3
  let t5 := punctSpaceSub ['.'] t4
  (pyStrip t5)

/-- Body of the sentence-pair loop of `ConjunctionsCorrector.correct`.
The state is (joined enhanced text so far, issues).  Note that when a
connector is chosen, the issue is appended whether or not the connector
text was actually inserted. -/
def conjStep (st : String × List Edit) (pc : String × String) :
    String × List Edit :=
  let prev := pc.1
  let curr := pc.2
  let connector := (chooseConnector prev curr).1
  let reason := (chooseConnector prev curr).2
  if connector != "" then
    let conn := if endsTerminal prev then capitalizePy connector else connector
    let newSent := if !(pyStartsWith (pyLower curr) conn) then
        " " ++ conn ++ ", " ++ curr
      else " " ++ curr
    (st.1 ++ newSent,
     st.2 ++ [{ span := some (st.1.length, st.1.length + newSent.length),
                orig := some "", repl := some conn, type := some "connector",
                reason := some reason, confidence := some 0.99 }])
  else (st.1 ++ " " ++ curr, st.2)

/-- `ConjunctionsCorrector.correct`.  `sentsOf` stands for the
annotator's sentence segmentation (`doc.sents` texts).  On blank input
the source returns a dict without a `confidence` key. -/
def correct (sentsOf : String → List String) (text : String) : StageResult :=
  if (pyStrip text) == "" then
    { corrected_text := text, issues_found := [], confidence := none }
  else
    let sentences := (sentsOf text).map pyStrip
    if sentences.length < 2 then
      { corrected_text := text, issues_found := [], confidence := some 1 }
    else
      let first := sentences.headD ""
      let pairs := sentences.zip sentences.tail
      let (joined, issues) := pairs.foldl conjStep (first, [])
      { corrected_text := fixSpacing joined, issues_found := issues,
        confidence := some (if issues.isEmpty then 1 else 0.99) }

/-- Specification-side abbreviation: the connector after the
capitalisation step of `correct` (capitalised when the previous sentence
ends with terminal punctuation). -/
def casedConnector (prev curr : String) : String :=
  if endsTerminal prev then capitalizePy (chooseConnector prev curr).1
  else (chooseConnector prev curr).1

/-- Specification-side abbreviation: the issue dict `correct` appends
for a chosen connector, given the accumulated length and the appended
sentence length. -/
def connectorEdit (prev curr : String) (accLen sentLen : Nat) : Edit :=
  { span := some (accLen, accLen + sentLen), orig := some "",
    repl := some (casedConnector prev curr), type := some "connector",
    reason := some (chooseConnector prev curr).2, confidence := some 0.99 }

end Conj

namespace Article

def ZERO_ARTICLE : List String :=
  ["home", "school", "college", "work", "bed", "church", "prison", "hospital",
   "market", "town", "breakfast", "lunch", "dinner", "class", "court",
   "parliament"]

def THE_NOUNS : List String :=
  ["sun", "moon", "earth", "world", "internet", "government", "sky", "sea",
   "ocean", "president", "prime minister"]

def A_BEFORE_U : List String :=
  ["university", "user", "unit", "ukulele", "unique", "uniform", "european",
   "useful"]

def AN_BEFORE_H : List String := ["hour", "honest", "honour", "heir", "honor"]

def UNCOUNTABLES : List String :=
  ["information", "advice", "water", "money", "music", "equipment",
   "knowledge"]

/-- `re.match(r"^[A-Z]{2,}$", word)`: two or more ASCII capitals. -/
def acronymCheck (word : String) : Bool :=
  word.length ≥ 2 && word.data.all (fun c => 'A' ≤ c && c ≤ 'Z')

/-- `re.match(r"^[aeiou]", w)` on the lowered word. -/
def startsVowelLetter (w : String) : Bool :=
  match w.data with
  | [] => false
  | c :: _ => ['a', 'e', 'i', 'o', 'u'].contains c

/-- `re.match(r"^h(our|onest|onour|onor|eir)", w)`. -/
def silentH (w : String) : Bool :=
  ["hour", "honest", "honour", "honor", "heir"].any (fun p => pyStartsWith w p)

/-- The vowel-sounding acronym first letters `"AEFHILMNORSX"`. -/
def vowelSoundLetters : List Char :=
  ['A', 'E', 'F', 'H', 'I', 'L', 'M', 'N', 'O', 'R', 'S', 'X']

/-- `ArticleUsageCorrector._choose_article`: the full cascade in source
order (exception lists are consulted before the acronym rule). -/
def chooseArticle (word : String) : String :=
  let w := (pyLower (pyStrip word))
  if w == "" then "a"
  else if AN_BEFORE_H.contains w then "an"
  else if A_BEFORE_U.contains w then "a"
  else if acronymCheck word then
    (if vowelSoundLetters.contains (word.data.headD ' ') then "an" else "a")
  else if startsVowelLetter w then "an"
  else if silentH w then "an"
  else "a"

/-- The `while` loop advancing `j` over space/punctuation tokens. -/
def nextContentIdxF (doc : List Tok) : Nat → Nat → Nat
  | 0, j => j
  | fuel + 1, j =>
    match doc.get? j with
    | none => j
    | some t => if t.isSpace || t.isPunct then nextContentIdxF doc fuel (j + 1) else j

/-- The `while` loop advancing `j` over space/punctuation tokens, with
sufficient fuel (`doc.length - j` bounds the number of steps; when it
reaches zero, `doc.get? j` is `none` and the loop would stop anyway). -/
def nextContentIdx (doc : List Tok) (j : Nat) : Nat :=
  nextContentIdxF doc (doc.length - j) j

/-- Body of the token loop of `ArticleUsageCorrector.correct`. -/
def correctStep (doc : List Tok) (st : List String × List Edit)
    (it : Nat × Tok) : List String × List Edit :=
  let (i, token) := it
  if token.isPunct || token.isSpace then st
  else
    let lword := (pyLower token.text)
    if lword == "a" || lword == "an" then
      let j := nextContentIdx doc (i + 1)
      match doc.get? j with
      | none => st
      | some nextTok =>
        let nextLemma := (pyLower nextTok.lemma_)
        if !(nextTok.pos == "NOUN" || nextTok.pos == "ADJ") then st
        else if ZERO_ARTICLE.contains nextLemma then
          (st.1.set i "",
           st.2 ++ [{ phase := some 10, type := some "zero_article_removed",
                      orig := some token.text, noun := some nextLemma,
                      confidence := some 0.97 }])
        else if UNCOUNTABLES.contains nextLemma then
          (st.1.set i "",
           st.2 ++ [{ phase := some 10, type := some "uncountable_article_removed",
                      orig := some token.text, noun := some nextLemma,
                      confidence := some 0.96 }])
        else
          let correctArticle := chooseArticle nextTok.text
          if correctArticle != lword then
            (st.1.set i (correctArticle ++ token.whitespace),
             st.2 ++ [{ phase := some 10, type := some "a_an_fixed",
                        orig := some token.text, repl := some correctArticle,
                        noun := some nextLemma, confidence := some 0.98 }])
          else st
    else if THE_NOUNS.contains lword then
      if i == 0 || !((doc.get? (i - 1)).map
          (fun p => ["a", "an", "the", "my", "our", "his", "her", "their"].contains
            (pyLower p.text))).getD false then
        (st.1.set i ("the " ++ token.text ++ token.whitespace),
         st.2 ++ [{ phase := some 10, type := some "insert_the_unique",
                    repl := some "the", noun := some lword,
                    confidence := some 0.97 }])
      else st
    else if lword == "rain" && i > 0 then
      if ((doc.get? (i - 1)).map
          (fun p => ["if", "when", "unless"].contains (pyLower p.text))).getD false then
        (st.1.set i ("the " ++ token.text ++ token.whitespace),
         st.2 ++ [{ phase := some 10, type := some "insert_the_rain",
                    repl := some "the", confidence := some 0.96 }])
      else st
    else st

/-- The direction rewrite
`re.sub(r"\b(in|to|from|towards)\s+(east|west|north|south)\b", ..., flags=re.I)`
as a run scanner. -/
def directionScanF : Nat → List (Bool × String) → List (Bool × String)
  | _, [] => []
  | 0, l => l
  | fuel + 1, (true, a) :: (false, ws) :: (true, b) :: rest =>
    if ["in", "to", "from", "towards"].contains (pyLower a) && isWsRun ws &&
        ["east", "west", "north", "south"].contains (pyLower b) then
      (true, a) :: (false, " ") :: (true, "the") :: (false, " ") :: (true, b) ::
        directionScanF fuel rest
    else (true, a) :: directionScanF fuel ((false, ws) :: (true, b) :: rest)
  | fuel + 1, r :: rest => r :: directionScanF fuel rest

/-- Entry point of `directionScanF` with sufficient fuel. -/
def directionScan (l : List (Bool × String)) : List (Bool × String) :=
  directionScanF l.length l

/-- The trailing match of `re.sub(r"\\b([Aa])n? +([Hh])[aeiou]", r"\\1n \\2", s)`
after the article letter and optional 'n': one or more literal spaces,
h/H, then a lowercase vowel (which the replacement drops, exactly as
the source regex does). -/
def anHTailCore : List Char → Option (Char × List Char)
  | h :: v :: rs =>
    if (h == 'h' || h == 'H') && ['a', 'e', 'i', 'o', 'u'].contains v then
      some (h, rs)
    else none
  | _ => none

/-- Spaces-then-h-vowel part of the smoothing regex. -/
def anHTail (l : List Char) : Option (Char × List Char) :=
  let sp := l.takeWhile (fun c => c == ' ')
  let rest := l.dropWhile (fun c => c == ' ')
  if sp.isEmpty then none else anHTailCore rest

/-- The `a/an + H + vowel` smoothing regex
`re.sub(r"\\b([Aa])n? +([Hh])[aeiou]", r"\\1n \\2", s)` as a character
scanner; `prevWord` tracks whether the previous character is a word
character (for the leading `\\b`), and the matched vowel is dropped
exactly as the source replacement does. -/
def aAnHScanF : Nat → Bool → List Char → List Char
  | _, _, [] => []
  | 0, _, l => l
  | fuel + 1, prevWord, c :: cs =>
    if !prevWord && (c == 'a' || c == 'A') then
      match cs with
      | 'n' :: cs2 =>
        match anHTail cs2 with
        | some (h, rs) => c :: 'n' :: ' ' :: h :: aAnHScanF fuel true rs
        | none =>
          match anHTail cs with
          | some (h, rs) => c :: 'n' :: ' ' :: h :: aAnHScanF fuel true rs
          | none => c :: aAnHScanF fuel true cs
      | _ =>
        match anHTail cs with
        | some (h, rs) => c :: 'n' :: ' ' :: h :: aAnHScanF fuel true rs
        | none => c :: aAnHScanF fuel true cs
    else c :: aAnHScanF fuel (isWordChar c) cs

/-- Entry point of `aAnHScanF` with sufficient fuel. -/
def aAnHScan (prevWord : Bool) (l : List Char) : List Char :=
  aAnHScanF l.length prevWord l

/-- The post-processing of `ArticleUsageCorrector.correct`: the four
substitutions in source order, then strip. -/
def postCleanup (s : String) : String :=
  let t1 := subWsPunct ['.', ',', '!', '?', ';', ':'] s
  let t2 := collapseWs2 t1
  let t3 := joinRuns (directionScan (toRuns t2.data))
  let t4 := String.mk (aAnHScan false t3.data)
  (pyStrip t4)

/-- `ArticleUsageCorrector.correct`; `lt` is the checker service's
`correct` method (an exception inside the try block behaves like the
identity). -/
def correct (nlp : String → List Tok) (lt : String → String)
    (text0 : String) : StageResult :=
  let text1 := preprocessText text0
  if (pyStrip text1) == "" then
    { corrected_text := text1, issues_found := [], confidence := some 1 }
  else
    let ltText := lt text1
    let (text, issues0) :=
      if ltText != text1 then
        (ltText, [({ phase := some 10, type := some "LT", orig := some text1,
                     repl := some ltText, confidence := some 0.98 } : Edit)])
      else (text1, [])
    let doc := nlp text
    let init := doc.map Tok.textWithWs
    let (tokens, issues) := doc.enum.foldl (correctStep doc) (init, issues0)
    let result := postCleanup (String.join tokens)
    { corrected_text := result, issues_found := issues,
      confidence := some (if issues.isEmpty then 1 else 0.99) }

end Article

namespace Sva

def SINGULAR_SUBJ : List String :=
  ["he", "she", "it", "each", "everyone", "someone", "nobody", "anyone",
   "everybody", "one", "somebody", "anybody", "no one"]

def PLURAL_SUBJ : List String :=
  ["they", "we", "you", "police", "people", "children", "data", "media",
   "cattle", "staff", "fish", "deer"]

def COLLECTIVE_SINGULAR : List String :=
  ["team", "family", "committee", "group", "class", "government", "staff",
   "audience", "jury", "crowd", "band", "public", "company"]

def ACADEMIC_SINGULAR : List String :=
  ["mathematics", "physics", "statistics", "economics", "politics", "news",
   "ethics", "athletics"]

def QUANTIFIER_SINGULAR : List String :=
  ["neither of", "either of", "each of", "one of", "every one of"]

def QUANTIFIER_PLURAL : List String :=
  ["a number of", "a lot of", "some of", "many of", "several of",
   "a few of", "plenty of"]

/-- `self.IRREGULAR` of `phase6_subject_verb.py`:
(lemma, singular form, plural form). -/
def IRREGULAR : List (String × String × String) :=
  [("be", "is", "are"), ("have", "has", "have"), ("do", "does", "do"),
   ("go", "goes", "go"), ("fly", "flies", "fly"), ("try", "tries", "try")]

/-- `SubjectVerbAgreementCorrector._conjugate`.  The `lemma[-2]` lookup
of the consonant-"y" rule is guarded by a length check (Python would
raise on a one-character lemma). -/
def conjugate (lemma0 : String) (num : String) : String :=
  let lem := (pyLower lemma0)
  match IRREGULAR.find? (fun e => e.1 == lem) with
  | some e => if num == "singular" then e.2.1 else e.2.2
  | none =>
    if num == "plural" then lem
    else if pyEndsWith lem "y" && lem.length ≥ 2 &&
        !(['a', 'e', 'i', 'o', 'u'].contains (lem.data.getD (lem.length - 2) ' ')) then
      pyDropRight lem 1 ++ "ies"
    else if pyEndsWith lem "s" || pyEndsWith lem "sh" || pyEndsWith lem "ch" ||
        pyEndsWith lem "x" || pyEndsWith lem "z" || pyEndsWith lem "o" then
      lem ++ "es"
    else lem ++ "s"

/-- The case-preservation step of `SubjectVerbAgreementCorrector.correct`
(lines 141-144): `capitalize()` when the first character is upper,
otherwise `upper()` when the whole token is upper-case. -/
def caseAdjust (surface target : String) : String :=
  if firstIsUpper surface then capitalizePy target
  else if pyIsUpper surface then pyUpper target
  else target

/-- The subject-number policy of `SubjectVerbAgreementCorrector.correct`
(quantifier subtree phrases, then lexical sets, then the plural tag,
else singular). -/
def subjectNumber (subjLower subtreeLower tag : String) : String :=
  if QUANTIFIER_SINGULAR.any (strContains subtreeLower) then "singular"
  else if QUANTIFIER_PLURAL.any (strContains subtreeLower) then "plural"
  else if PLURAL_SUBJ.contains subjLower then "plural"
  else if SINGULAR_SUBJ.contains subjLower || COLLECTIVE_SINGULAR.contains subjLower ||
      ACADEMIC_SINGULAR.contains subjLower then "singular"
  else if tag == "NNS" || tag == "NNPS" then "plural"
  else "singular"

/-- One iteration result of the spaCy rule-engine loop. -/
inductive LoopOutcome where
  | advance
  | replace (target : String) (subjText : String)

/-- The body of the `while i < len(doc)` loop for token `i`, deciding
whether to skip to `i+1` or replace the verb token. -/
def loopBody (doc : List Tok) (i : Nat) : LoopOutcome :=
  match doc.get? i with
  | none => .advance
  | some token =>
    if token.pos != "VERB" ||
        !(["ROOT", "aux", "auxpass", "csubj", "csubjpass"].contains token.dep) then
      .advance
    else
      let subjects := (token.children.filterMap (doc.get?)).filter
        (fun c => ["nsubj", "nsubjpass", "csubj", "csubjpass"].contains c.dep)
      match subjects with
      | [] => .advance
      | subj :: _ =>
        let subjLower := (pyLower subj.text)
        let subtreeLower := joinSpace
          ((subj.subtree.filterMap (doc.get?)).map (fun t => pyLower t.text))
        let num := subjectNumber subjLower subtreeLower subj.tag
        let target0 := conjugate (pyLower token.lemma_) num
        if target0 == "" then .advance
        else
          let target := caseAdjust token.text target0
          if (pyLower target) != (pyLower token.text) then .replace target subj.text
          else .advance

/-- The re-annotating scan loop of `SubjectVerbAgreementCorrector.correct`.
The Python loop restarts from index 0 after every replacement and has no
iteration bound (spec section 9 flags this as an open question); the
embedding makes the bound explicit via `fuel`, consumed once per
iteration, and returns the current state when it runs out. -/
def svaLoop (nlp : String → List Tok) :
    Nat → List Tok → List String → List Edit → Nat → List String × List Edit
  | 0, _, tokens, issues, _ => (tokens, issues)
  | fuel + 1, doc, tokens, issues, i =>
    if i < doc.length then
      match loopBody doc i with
      | .advance => svaLoop nlp fuel doc tokens issues (i + 1)
      | .replace target subjText =>
        let oldText := ((doc.get? i).map (·.text)).getD ""
        let ws := ((doc.get? i).map (·.whitespace)).getD ""
        let tokens1 := tokens.set i (target ++ ws)
        let text1 := String.join tokens1
        let doc1 := nlp text1
        svaLoop nlp fuel doc1 (doc1.map Tok.textWithWs)
          (issues ++ [{ orig := some oldText, repl := some target,
                        phase := some 6, source := some "spaCy-rule",
                        subject := some subjText, confidence := some 0.97 }]) 0
    else (tokens, issues)

/-- `SubjectVerbAgreementCorrector.correct`; `lt` is the checker
service's `correct` method and `fuel` bounds the unbounded re-annotation
loop of the source. -/
def correct (fuel : Nat) (nlp : String → List Tok) (lt : String → String)
    (text0 : String) : StageResult :=
  let text := pyStrip (preprocessText text0)
  if text == "" then
    { corrected_text := text, issues_found := [], confidence := some 1 }
  else
    let ltFixed := lt text
    let (text1, issues0) :=
      if ltFixed != text then
        (ltFixed, [({ phase := some 6, type := some "LT_SVA", orig := some text,
                      repl := some ltFixed, confidence := some 0.98 } : Edit)])
      else (text, [])
    let doc := nlp text1
    let (tokens, issues) := svaLoop nlp fuel doc (doc.map Tok.textWithWs) issues0 0
    let result := pyStrip (subWsPunct ['.', ',', '!', '?', ';', ':']
      (String.join tokens))
    { corrected_text := result, issues_found := issues,
      confidence := some (if issues.isEmpty then 1 else 0.98) }

end Sva

namespace Pipeline

/-- The dict a stage's `correct` may return, as `run` reads it:
`result.get("corrected_text", current)` and
`result.get("issues_found", [])` tolerate absent keys, so both fields
are `Option`s here; the stage-level confidence is not read by `run`. -/
structure StageOut where
  corrected_text : Option String := none
  issues_found : Option (List Edit) := none
  confidence : Option ℚ := none
deriving DecidableEq, Repr

/-- One registered phase: its class name and its `correct` method; a
raised exception is an `Except.error`. -/
def Stage : Type := String × (String → Except String StageOut)

/-- `edit.setdefault("phase", i)`, `edit.setdefault("phase_name", name)`,
`edit.setdefault("confidence", 0.95)`. -/
def tagEdit (i : Nat) (name : String) (e : Edit) : Edit :=
  { e with phase := some (e.phase.getD i),
           phase_name := some (e.phase_name.getD name),
           confidence := some (e.confidence.getD 0.95) }

/-- The body of the phase loop of `GrammarPipeline.run`: on success adopt
the corrected text and append the tagged issues; on exception (`except
... continue`) leave the state untouched. -/
def pipeStep (st : String × List Edit) (p : Nat × Stage) : String × List Edit :=
  match p.2.2 st.1 with
  | .error _ => st
  | .ok r =>
    let current := r.corrected_text.getD st.1
    let issues := r.issues_found.getD []
    (current, st.2 ++ issues.map (tagEdit p.1 p.2.1))

/-- `enumerate(self.phases, start=6)`. -/
def enumFrom (n : Nat) : List Stage → List (Nat × Stage)
  | [] => []
  | s :: rest => (n, s) :: enumFrom (n + 1) rest

/-- The final trace of `GrammarPipeline.run` (the generated id,
timestamp, runtime and the saved JSON file are external concerns and
are not modelled; `f1_score` is `round(confidence_avg, 2)`). -/
structure PipeResult where
  corrected_text : String
  total_fixed : Nat
  confidence_avg : ℚ
  edits : List Edit
deriving DecidableEq, Repr

/-- `GrammarPipeline.run`: blank input short-circuits; otherwise the
phases are folded over the stripped text and the metrics computed.
`avg_confidence` is the rounded mean of the edits' confidences
(defaulting each to 0.95), or 1.0 with no edits. -/
def run (phases : List Stage) (text : String) : PipeResult :=
  if (pyStrip text) = "" then
    { corrected_text := "", total_fixed := 0, confidence_avg := 1, edits := [] }
  else
    let st := (enumFrom 6 phases).foldl pipeStep ((pyStrip text), [])
    let avg :=
      if st.2.isEmpty then 1
      else pyRound 3 (((st.2.map (fun e => e.confidence.getD 0.95)).sum) / st.2.length)
    { corrected_text := (pyStrip st.1), total_fixed := st.2.length,
      confidence_avg := avg, edits := st.2 }

end Pipeline

/-! Concrete annotator instances and documents used by the theorems
below as explicit inputs. -/

/-- An annotator producing no tokens (the stages under test do not read
the document on the relevant paths). -/
def emptyNlp : String → List Tok := fun _ => []

/-- An annotator producing a single verb token. -/
def oneVerbNlp : String → List Tok := fun _ => [{ pos := "VERB" }]

/-- A 21-token document: a qualifying noun at index 0, nineteen
non-noun fillers, and a pronoun at index 20 (so the noun sits exactly
20 tokens before the pronoun). -/
def pronounDoc : List Tok :=
  ({ text := "John", pos := "NOUN", dep := "nsubj" } : Tok) ::
    (List.replicate 19 ({ text := "ran", pos := "VERB" } : Tok) ++
      [{ text := "he", pos := "PRON" }])

/-- Sentence segmentation for the conjunction counterexample: two
sentences, the second already beginning with "but". -/
def contrastSents : String → List String :=
  fun _ => ["He is not rich", "but she is happy"]

/-- Annotation of "He has a MBA degree." (the acronym tagged as a noun,
as the claim assumes). -/
def mbaDoc : List Tok :=
  [{ text := "He", whitespace := " ", lemma_ := "he", pos := "PRON" },
   { text := "has", whitespace := " ", lemma_ := "have", pos := "VERB" },
   { text := "a", whitespace := " ", lemma_ := "a", pos := "DET" },
   { text := "MBA", whitespace := " ", lemma_ := "MBA", pos := "NOUN" },
   { text := "degree", whitespace := "", lemma_ := "degree", pos := "NOUN" },
   { text := ".", whitespace := "", lemma_ := ".", pos := "PUNCT",
     isPunct := true }]

/-- Constant annotator for the MBA example. -/
def mbaNlp : String → List Tok := fun _ => mbaDoc

/-! Claim theorems. -/

set_option maxHeartbeats 1000000 in
/-- C10: the tense stage's irregular-verb table is a bijection between
base and past forms (both projections are duplicate-free), and the two
lookup helpers invert each other on it: for every (base, past) pair,
`_past_participle(base) = past` and `_get_base(past) = base`. -/
theorem tense_irregular_roundtrip :
    (∀ bp ∈ Tense.irregular,
      Tense.pastParticiple bp.1 = bp.2 ∧ Tense.getBase bp.2 = bp.1) ∧
    (Tense.irregular.map Prod.fst).Nodup ∧
    (Tense.irregular.map Prod.snd).Nodup := by
  refine ⟨by decide, by decide, by decide⟩

/-- Witness for C10 at the concrete pair ("go", "went"). -/
theorem tense_irregular_roundtrip_witness :
    Tense.pastParticiple "go" = "went" ∧ Tense.getBase "went" = "go" :=
  tense_irregular_roundtrip.1 ("go", "went") (by decide)

/-- C9: the tense stage's confidence equals
`round(min(0.8 + (edit_count / verb_count) * 0.2, 1.0), 2)` whenever the
text has at least one verb token (so that `max(verb_count, 1)` is
`verb_count`), and equals exactly 1.0 whenever the text has no verb
tokens. -/
theorem tense_confidence_formula (nlp : String → List Tok) (text : String)
    (n : Nat) :
    (Tense.verbCount nlp text = 0 → Tense.computeConfidence nlp text n = 1) ∧
    (0 < Tense.verbCount nlp text →
      Tense.computeConfidence nlp text n =
        pyRound 2 (min ((4 : ℚ) / 5 +
          ((n : ℚ) / (Tense.verbCount nlp text : ℚ)) * (1 / 5)) 1)) := by
  constructor
  · intro h
    simp [Tense.computeConfidence, h]
  · intro h
    have h1 : (Tense.verbCount nlp text == 0) = false := by
      simp only [beq_eq_false_iff_ne, ne_eq]
      omega
    have h2 : max ((Tense.verbCount nlp text : ℚ)) 1 = (Tense.verbCount nlp text : ℚ) := by
      apply max_eq_left
      exact_mod_cast Nat.one_le_iff_ne_zero.mpr (by omega)
    simp only [Tense.computeConfidence, h1, Bool.false_eq_true, if_false]
    norm_num [h2]

/-- Witness for C9: the no-verb arm at a text with no verb tokens, and
the formula arm at a one-verb text with two issues. -/
theorem tense_confidence_formula_witness :
    Tense.computeConfidence emptyNlp "text with no verbs" 3 = 1 ∧
    Tense.computeConfidence oneVerbNlp "run" 2 =
      pyRound 2 (min ((4 : ℚ) / 5 +
        ((2 : ℚ) / (Tense.verbCount oneVerbNlp "run" : ℚ)) * (1 / 5)) 1) :=
  ⟨(tense_confidence_formula emptyNlp "text with no verbs" 3).1 (by decide),
   (tense_confidence_formula oneVerbNlp "run" 2).2 (by decide)⟩

/-- C4 (code bug): on an all-capitals verb token the replacement is NOT
all-capitals.  For the verb "ARE" with a singular subject the target
form is "is" (irregular table), and the case step produces "Is" via
`str.capitalize()`, because `token.text[0].isupper()` is true for an
all-caps token, so the `elif token.text.isupper()` branch that would
produce "IS" is unreachable. -/
theorem sva_allcaps_case_not_preserved :
    Sva.conjugate "be" "singular" = "is" ∧
    pyIsUpper "ARE" = true ∧
    Sva.caseAdjust "ARE" "is" = "Is" ∧
    Sva.caseAdjust "ARE" "is" ≠ "IS" := by
  refine ⟨by decide, by decide, by decide, by decide⟩

set_option maxHeartbeats 1000000 in
/-- C5 counterexample: with dominant tense future, the sentence
"She ate." contains the irregular past form "ate" (of "eat", which is in
the table), yet `_apply_rules` leaves the text unchanged — the future
rewrite only covers went/came/bought/saw — while still appending a
`future_normalize` edit although no rewrite occurred. -/
theorem tense_future_counterexample :
    Tense.applyRules emptyNlp "She ate." "future" =
      ("She ate.", [Tense.futureEdit]) ∧
    ("eat", "ate") ∈ Tense.irregular := by
  exact ⟨by decide, by decide⟩

set_option maxHeartbeats 1000000 in
/-- C5 amended: when the dominant tense is future, `_apply_rules`
records exactly one `future_normalize` edit per sentence,
unconditionally (whether or not any rewrite occurred); the word rewrite
of the future branch maps a word to its table base form exactly when it
is one of the four literal past forms went/came/bought/saw — all other
words, including every other irregular past form in the table, are left
unchanged. -/
theorem tense_future_normalize_amended :
    (∀ (nlp : String → List Tok) (s : String),
      (Tense.applyRules nlp s "future").2 = [Tense.futureEdit]) ∧
    (∀ w : String, Tense.fourPast.contains w = false →
      Tense.wordFutureMap w = w) ∧
    Tense.wordFutureMap "went" = "go" ∧ Tense.wordFutureMap "came" = "come" ∧
    Tense.wordFutureMap "bought" = "buy" ∧ Tense.wordFutureMap "saw" = "see" := by
  refine ⟨fun nlp s => rfl, fun w hw => ?_, by decide, by decide, by decide,
    by decide⟩
  unfold Tense.wordFutureMap
  rw [hw]
  simp

/-- Witness for C5's amended theorem at the word "ate". -/
theorem tense_future_normalize_amended_witness :
    Tense.fourPast.contains "ate" = false ∧ Tense.wordFutureMap "ate" = "ate" :=
  ⟨by decide, tense_future_normalize_amended.2.1 "ate" (by decide)⟩

/-- Helper: the step-counted antecedent loop examines
`doc[start], doc[start-1], ...` for `count` steps, which is searching
the reversed prefix ending at `start`, truncated to `count` tokens. -/
theorem findAntecedentGo_spec (doc : List Tok) :
    ∀ (count start : Nat), start < doc.length →
      Pronoun.findAntecedentGo doc start count =
        ((doc.take (start + 1)).reverse.take count).find? Pronoun.antecedentPred := by
  intro count
  induction count with
  | zero => intro start h; simp [Pronoun.findAntecedentGo]
  | succ n ih =>
    intro start h
    have hget : doc[start]? = some doc[start] := List.getElem?_eq_getElem h
    have hget2 : doc.get? start = some doc[start] := by
      rw [List.get?_eq_getElem?, hget]
    have htake : (doc.take (start + 1)).reverse =
        doc[start] :: (doc.take start).reverse := by
      rw [List.take_succ, hget]
      simp
    have hunfold : Pronoun.findAntecedentGo doc start (n + 1) =
        (match doc.get? start with
         | none => none
         | some t => if Pronoun.antecedentPred t then some t
                     else Pronoun.findAntecedentGo doc (start - 1) n) := rfl
    rw [hunfold, hget2, htake]
    by_cases hp : Pronoun.antecedentPred doc[start] = true
    · simp [hp]
    · have hp' : Pronoun.antecedentPred doc[start] = false :=
        Bool.eq_false_iff.mpr hp
      simp only [hp', Bool.false_eq_true, if_false, List.take_succ_cons]
      rw [List.find?_cons_of_neg _ (by simp [hp'])]
      cases start with
      | zero =>
        rw [ih 0 h, htake]
        simp only [List.take_zero, List.reverse_nil, List.take_nil,
          List.find?_nil]
        cases n with
        | zero => simp
        | succ m =>
          simp only [List.take_succ_cons, List.take_nil]
          rw [List.find?_cons_of_neg _ (by simp [hp'])]
          simp
      | succ s =>
        have hs : s < doc.length := by omega
        simp only [Nat.add_sub_cancel]
        exact ih s hs

/-- C6 counterexample: in a document whose only qualifying noun sits
exactly 20 tokens before the pronoun, `_find_antecedent` returns `None`
— the Python range examines at most 19 tokens backward, not 20 as the
claim states. -/
theorem pronoun_window_counterexample :
    Pronoun.findAntecedent pronounDoc 20 = none ∧
    (pronounDoc.get? 0).any Pronoun.antecedentPred = true ∧
    pronounDoc.length = 21 := by
  refine ⟨by decide, by decide, by decide⟩

/-- C6 amended: for every pronoun position `pi` inside the document,
the antecedent search returns exactly the first token satisfying the
noun / proper-noun, non-prepositional-object, non-possessive filter
among the 19 (not 20) tokens immediately preceding the pronoun, scanned
nearest first; it returns `none` (the pronoun is skipped) when no such
token exists in that window. -/
theorem pronoun_antecedent_window_amended (doc : List Tok) (pi : Nat)
    (h : pi ≤ doc.length) :
    Pronoun.findAntecedent doc pi =
      ((doc.take pi).reverse.take 19).find? Pronoun.antecedentPred := by
  unfold Pronoun.findAntecedent
  cases pi with
  | zero => simp [Pronoun.findAntecedentGo]
  | succ p =>
    have hp : p < doc.length := by omega
    have h1 : p + 1 - 1 = p := rfl
    rw [h1, findAntecedentGo_spec doc (min (p + 1) 19) p hp]
    congr 1
    apply (List.take_eq_take).mpr
    have hlen : ((doc.take (p + 1)).reverse).length = p + 1 := by
      simp [List.length_take]
      omega
    rw [hlen]
    omega

/-- Witness for C6's amended theorem at the counterexample document and
pronoun index 20. -/
theorem pronoun_antecedent_window_amended_witness :
    Pronoun.findAntecedent pronounDoc 20 =
      ((pronounDoc.take 20).reverse.take 19).find? Pronoun.antecedentPred :=
  pronoun_antecedent_window_amended pronounDoc 20 (by decide)

/-- C7 counterexample: for the sentence pair "He is not rich" /
"but she is happy", the contrast rule chooses "but", the current
sentence already begins with it, so nothing is inserted (the corrected
text is the plain join of the two sentences) — yet one connector edit
is still recorded, contradicting "an edit record is produced exactly
when a connector is actually inserted". -/
theorem conj_edit_without_insertion_counterexample :
    (Conj.correct contrastSents
        "He is not rich but she is happy").corrected_text =
      "He is not rich but she is happy" ∧
    ((Conj.correct contrastSents
        "He is not rich but she is happy").issues_found.map (fun e => e.repl)) =
      [some "but"] := by
  refine ⟨by decide, by decide⟩

/-- C7 amended: per sentence pair, when no connector is chosen the
sentence is appended unchanged with no edit; when a connector is chosen,
an edit record (span, connector, reason, confidence 0.99) is appended
whether or not the connector is actually inserted, and insertion is
suppressed exactly when the lowercased current sentence starts with the
cased connector (so a capitalised connector, after terminal punctuation,
is inserted even if the sentence already begins with it). -/
theorem conj_connector_amended (prev curr acc : String) (issues : List Edit) :
    ((Conj.chooseConnector prev curr).1 = "" →
      Conj.conjStep (acc, issues) (prev, curr) = (acc ++ " " ++ curr, issues)) ∧
    ((Conj.chooseConnector prev curr).1 ≠ "" →
      pyStartsWith (pyLower curr) (Conj.casedConnector prev curr) = true →
      Conj.conjStep (acc, issues) (prev, curr) =
        (acc ++ " " ++ curr,
         issues ++ [Conj.connectorEdit prev curr acc.length
           (" " ++ curr).length])) ∧
    ((Conj.chooseConnector prev curr).1 ≠ "" →
      pyStartsWith (pyLower curr) (Conj.casedConnector prev curr) = false →
      Conj.conjStep (acc, issues) (prev, curr) =
        (acc ++ (" " ++ Conj.casedConnector prev curr ++ ", " ++ curr),
         issues ++ [Conj.connectorEdit prev curr acc.length
           (" " ++ Conj.casedConnector prev curr ++ ", " ++ curr).length])) := by
  refine ⟨fun h0 => ?_, fun hne hsw => ?_, fun hne hsw => ?_⟩
  · simp [Conj.conjStep, h0]
  · have hb : ((Conj.chooseConnector prev curr).1 != "") = true := by
      simp [bne, hne]
    simp only [Conj.conjStep, Conj.casedConnector, Conj.connectorEdit] at *
    simp [hb, hsw, String.append_assoc]
  · have hb : ((Conj.chooseConnector prev curr).1 != "") = true := by
      simp [bne, hne]
    simp only [Conj.conjStep, Conj.casedConnector, Conj.connectorEdit] at *
    simp [hb, hsw, String.append_assoc]

/-- Witness for C7's amended theorem at the counterexample pair (the
suppressed-insertion arm) and at a no-connector pair. -/
theorem conj_connector_amended_witness :
    Conj.conjStep ("He is not rich", []) ("He is not rich", "but she is happy") =
      ("He is not rich" ++ " " ++ "but she is happy",
       [] ++ [Conj.connectorEdit "He is not rich" "but she is happy"
         ("He is not rich" : String).length (" " ++ "but she is happy").length]) ∧
    Conj.conjStep ("x", []) ("x", "y because z") =
      ("x" ++ " " ++ "y because z", []) :=
  ⟨(conj_connector_amended "He is not rich" "but she is happy"
      "He is not rich" []).2.1 (by decide) (by decide),
   (conj_connector_amended "x" "y because z" "x" []).1 (by decide)⟩

/-- C8 counterexample: "EUROPEAN" matches the all-caps acronym pattern
and its first letter E is in the vowel-sounding set, so the claim says
the chosen article is "an" — but `_choose_article` consults the
`A_BEFORE_U` exception list (which contains "european") before the
acronym rule and returns "a". -/
theorem article_acronym_counterexample :
    Article.acronymCheck "EUROPEAN" = true ∧
    Article.vowelSoundLetters.contains 'E' = true ∧
    Article.chooseArticle "EUROPEAN" = "a" := by
  refine ⟨by decide, by decide, by decide⟩

/-- C8 amended: for an all-caps acronym token (two or more capitals,
no surrounding whitespace) whose lowercased form is in neither the
an-before-h nor the a-before-u exception list (both checked first), the
chosen article is "an" exactly when the first letter is in
{A,E,F,H,I,L,M,N,O,R,S,X}; and on the concrete annotated sentence
"He has a MBA degree." the stage outputs "He has an MBA degree." with a
single `a_an_fixed` edit. -/
theorem article_acronym_amended :
    (∀ w : String, Article.acronymCheck w = true →
      pyStrip w = w →
      Article.AN_BEFORE_H.contains (pyLower w) = false →
      Article.A_BEFORE_U.contains (pyLower w) = false →
      Article.chooseArticle w =
        (if Article.vowelSoundLetters.contains (w.data.headD ' ')
         then "an" else "a")) ∧
    (Article.correct mbaNlp id "He has a MBA degree.").corrected_text =
      "He has an MBA degree." ∧
    ((Article.correct mbaNlp id "He has a MBA degree.").issues_found.map
      (fun e => e.type)) = [some "a_an_fixed"] := by
  refine ⟨fun w hacr hstrip hh hu => ?_, by decide, by decide⟩
  have hlen : w.data.length ≥ 2 := by
    unfold Article.acronymCheck at hacr
    simp only [Bool.and_eq_true, decide_eq_true_eq] at hacr
    exact hacr.1
  have hne : (pyLower w == "") = false := by
    apply beq_eq_false_iff_ne.mpr
    intro heq
    have hdata := congrArg String.data heq
    simp only [pyLower] at hdata
    have : w.data.map Char.toLower = [] := hdata
    have hw : w.data = [] := List.map_eq_nil_iff.mp this
    rw [hw] at hlen
    simp at hlen
  unfold Article.chooseArticle
  rw [hstrip]
  simp only [hne, Bool.false_eq_true, if_false, hh, hu, hacr, if_true]

/-- Witness for C8's amended theorem at the acronym "MBA". -/
theorem article_acronym_amended_witness :
    Article.chooseArticle "MBA" =
      (if Article.vowelSoundLetters.contains ("MBA".data.headD ' ')
       then "an" else "a") :=
  article_acronym_amended.1 "MBA" (by decide) (by decide) (by decide) (by decide)

/-- Helper: members of `enumerate(phases, start=n)` are members of
`phases`. -/
theorem enumFrom_mem :
    ∀ (n : Nat) (l : List Pipeline.Stage) (q : Nat × Pipeline.Stage),
      q ∈ Pipeline.enumFrom n l → q.2 ∈ l := by
  intro n l
  induction l generalizing n with
  | nil => intro q hq; simp [Pipeline.enumFrom] at hq
  | cons a rest ih =>
    intro q hq
    simp only [Pipeline.enumFrom, List.mem_cons] at hq
    rcases hq with h | h
    · subst h; simp
    · exact List.mem_cons_of_mem _ (ih (n + 1) q h)

/-- C1: failure isolation of `GrammarPipeline.run`.  First conjunct: if
a stage's `correct` raises, the loop body leaves the state untouched —
the running text stays exactly what it was before the failing stage and
the stage contributes zero edit records.  Second conjunct: `run` returns
a result object even in the worst case where every stage raises; the
corrected text then equals the (stripped) original input with zero
recorded edits and confidence 1. -/
theorem pipeline_failure_isolation :
    (∀ (st : String × List Edit) (p : Nat × Pipeline.Stage) (err : String),
      p.2.2 st.1 = Except.error err → Pipeline.pipeStep st p = st) ∧
    (∀ (phases : List Pipeline.Stage) (text : String),
      pyStrip text = text → text ≠ "" →
      (∀ p ∈ phases, ∀ t, ∃ err, p.2 t = Except.error err) →
      Pipeline.run phases text =
        { corrected_text := text, total_fixed := 0, confidence_avg := 1,
          edits := [] }) := by
  constructor
  · intro st p err he
    simp [Pipeline.pipeStep, he]
  · intro phases text hs hne hall
    have hfold : ∀ (l : List (Nat × Pipeline.Stage)) (st : String × List Edit),
        (∀ q ∈ l, ∀ t, ∃ err, q.2.2 t = Except.error err) →
        l.foldl Pipeline.pipeStep st = st := by
      intro l
      induction l with
      | nil => intro st _; rfl
      | cons q rest ih =>
        intro st hq
        obtain ⟨err, he⟩ := hq q (by simp) st.1
        rw [List.foldl_cons,
          show Pipeline.pipeStep st q = st from by simp [Pipeline.pipeStep, he]]
        exact ih st (fun r hr t => hq r (by simp [hr]) t)
    unfold Pipeline.run
    rw [hs, if_neg hne]
    rw [hfold _ _ (fun q hq t => hall q.2 (enumFrom_mem 6 phases q hq) t)]
    simp [hs]

/-- A stage whose `correct` raises on every input. -/
def boomStage : Pipeline.Stage :=
  ("BoomCorrector", fun _ => Except.error "boom")

/-- Witness for C1 with a concretely failing stage. -/
theorem pipeline_failure_isolation_witness :
    Pipeline.pipeStep ("The team win.", []) (6, boomStage) =
      ("The team win.", []) ∧
    Pipeline.run [boomStage] "The team win." =
      { corrected_text := "The team win.", total_fixed := 0,
        confidence_avg := 1, edits := [] } :=
  ⟨pipeline_failure_isolation.1 ("The team win.", []) (6, boomStage) "boom" rfl,
   pipeline_failure_isolation.2 [boomStage] "The team win." (by decide)
     (by decide)
     (fun p hp t => by rw [List.mem_singleton.mp hp]; exact ⟨"boom", rfl⟩)⟩

/-- C2: round-trip on well-formed input at the orchestrator level — if
every registered stage maps the (already stripped, nonempty) text to
itself with zero issues (i.e. the text is a fixed point of every
stage's rules), then the full pipeline output equals the input and the
aggregate confidence equals 1.0. -/
theorem pipeline_fixed_point_roundtrip (phases : List Pipeline.Stage)
    (text : String) (hs : pyStrip text = text) (hne : text ≠ "")
    (hfix : ∀ p ∈ phases, ∃ c, p.2 text =
      Except.ok { corrected_text := some text, issues_found := some [],
                  confidence := c }) :
    Pipeline.run phases text =
      { corrected_text := text, total_fixed := 0, confidence_avg := 1,
        edits := [] } := by
  have hfold : ∀ (l : List (Nat × Pipeline.Stage)),
      (∀ q ∈ l, ∃ c, q.2.2 text =
        Except.ok { corrected_text := some text, issues_found := some [],
                    confidence := c }) →
      l.foldl Pipeline.pipeStep (text, []) = (text, []) := by
    intro l
    induction l with
    | nil => intro _; rfl
    | cons q rest ih =>
      intro hq
      obtain ⟨c, he⟩ := hq q (by simp)
      rw [List.foldl_cons,
        show Pipeline.pipeStep (text, []) q = (text, []) from by
          simp [Pipeline.pipeStep, he]]
      exact ih (fun r hr => hq r (by simp [hr]))
  unfold Pipeline.run
  rw [hs, if_neg hne]
  rw [hfold _ (fun q hq => hfix q.2 (enumFrom_mem 6 phases q hq))]
  simp [hs]

/-- A stage whose `correct` is the identity with zero issues. -/
def idStage : Pipeline.Stage :=
  ("IdentityCorrector", fun t =>
    Except.ok { corrected_text := some t, issues_found := some [],
                confidence := some 1 })

/-- Witness for C2 with a concrete identity stage on already-correct
text. -/
theorem pipeline_fixed_point_roundtrip_witness :
    Pipeline.run [idStage] "The cat sleeps." =
      { corrected_text := "The cat sleeps.", total_fixed := 0,
        confidence_avg := 1, edits := [] } :=
  pipeline_fixed_point_roundtrip [idStage] "The cat sleeps." (by decide)
    (by decide)
    (fun p hp => by rw [List.mem_singleton.mp hp]; exact ⟨some 1, rfl⟩)

/-- C3 counterexample: on blank input, the pronoun stage and the
conjunction stage return dicts without a `confidence` key, so not every
stage's result contains all three keys for every input string. -/
theorem stage_contract_blank_confidence_counterexample :
    (Pronoun.correct emptyNlp "").confidence = none ∧
    (Conj.correct (fun t => [t]) " ").confidence = none := by
  refine ⟨by decide, by decide⟩

/-- C3 amended: every stage result structurally contains
`corrected_text` and `issues_found`; the subject-verb, tense and
article stages return a `confidence` key for every input, while the
pronoun and conjunction stages return one exactly for inputs that are
not empty/whitespace-only (on blank input their result omits the
`confidence` key). -/
theorem stage_contract_keys (fuel : Nat) (nlp : String → List Tok)
    (sentSplit : String → List String) (gf : Option (String → String))
    (ltCheck : String → Bool) (lt : String → String) (text : String) :
    (Sva.correct fuel nlp lt text).confidence.isSome = true ∧
    (Tense.correct nlp sentSplit gf ltCheck lt text).confidence.isSome = true ∧
    (Article.correct nlp lt text).confidence.isSome = true ∧
    (pyStrip text ≠ "" →
      (Pronoun.correct nlp text).confidence.isSome = true ∧
      (Conj.correct sentSplit text).confidence.isSome = true) ∧
    (pyStrip text = "" →
      (Pronoun.correct nlp text).confidence = none ∧
      (Conj.correct sentSplit text).confidence = none) := by
  refine ⟨?_, ?_, ?_, fun h => ⟨?_, ?_⟩, fun h => ⟨?_, ?_⟩⟩
  · simp only [Sva.correct]
    split <;> simp
  · simp only [Tense.correct]
    split <;> simp
  · simp only [Article.correct]
    split <;> simp
  · simp only [Pronoun.correct]
    rw [if_neg (by simpa using h)]
    simp
  · simp only [Conj.correct]
    rw [if_neg (by simpa using h)]
    split <;> simp
  · simp only [Pronoun.correct]
    rw [if_pos (by simpa using h)]
  · simp only [Conj.correct]
    rw [if_pos (by simpa using h)]

/-- Witness for C3's amended theorem at concrete stages and inputs. -/
theorem stage_contract_keys_witness :
    (Sva.correct 0 emptyNlp id "The cat sleeps.").confidence.isSome = true ∧
    (Pronoun.correct emptyNlp "").confidence = none :=
  ⟨(stage_contract_keys 0 emptyNlp (fun t => [t]) none (fun _ => false) id
      "The cat sleeps.").1,
   ((stage_contract_keys 0 emptyNlp (fun t => [t]) none (fun _ => false) id
      "").2.2.2.2 (by decide)).1⟩

end GrammarEnhancer
